import Mathlib

/-!
Verification of the roster logic of `telegram-bot-rol.py`.

The program is a Telegram bot backed by SQLite.  We shallowly embed the two
tables (`events`, `attendees`) as Lean lists kept in rowid (insertion) order,
and the handlers (`create_event`, `on_button`) and rendering helpers
(`human_name`, `render_event_text`, `render_event_by_id`) as pure functions
that thread the database state explicitly.  Transport calls
(`reply_text`, `edit_message_text`) become constructors of an effect type.

Timestamps: the code stores `datetime.now(...).strftime("%Y-%m-%d %H:%M")`
strings; within that fixed zero-padded format, lexicographic string order
coincides with numeric order, and distinct joins inside the same minute get
equal strings.  We model a timestamp as a `Nat` supplied by the caller
(`now`); ties are equal `Nat`s.

SQL semantics used by the code and how it is embedded:
  - `INSERT INTO attendees ...` with `PRIMARY KEY (event_id, user_id)`
    raises `sqlite3.IntegrityError` when the pair is already present; the
    handler catches it and does nothing, so the embedding inserts only when
    the pair is absent (`join_insert`).
  - `DELETE FROM attendees WHERE event_id = ? AND user_id = ?` removes every
    matching row (`leave_delete`).
  - `SELECT ... FROM attendees WHERE event_id = ? ORDER BY joined_at ASC`
    guarantees only a result nondecreasing in `joined_at`: SQLite leaves
    the relative order of rows with equal keys undefined (the plan may scan
    in rowid order or via the `(event_id, user_id)` primary-key index).
    The embedding fixes one admissible result, a stable `List.mergeSort`
    over the rowid-ordered table (`list_attendees`); the predicate
    `sql_ordered` states the order contract the engine actually
    guarantees, and properties that depend on the equal-key order are
    settled against that contract, not against the chosen realization.
  - `SELECT * FROM events WHERE id = ?` with `fetchone` is `List.find?`
    (`get_event`); `AUTOINCREMENT` is the `next_id` counter.
-/

namespace RolBot

/-- A Telegram user as the handlers see it (`query.from_user` or
`message.from_user`): numeric id plus optional username and first name. -/
structure User where
  id : Int
  username : Option String
  first_name : Option String
deriving Repr, DecidableEq

/-- A row of the `events` table (see `SCHEMA_SQL`). -/
structure EventRow where
  id : Int
  chat_id : Int
  message_id : Option Int
  description : String
  creator_id : Int
  created_at : Nat
deriving Repr, DecidableEq

/-- A row of the `attendees` table (see `SCHEMA_SQL`). -/
structure AttendeeRow where
  event_id : Int
  user_id : Int
  username : Option String
  first_name : Option String
  joined_at : Nat
deriving Repr, DecidableEq

/-- The SQLite database state.  `events` and `attendees` are kept in rowid
(insertion) order; `next_id` is the `AUTOINCREMENT` counter for `events`. -/
structure DB where
  events : List EventRow
  attendees : List AttendeeRow
  next_id : Int
deriving Repr, DecidableEq

/-- The empty database produced by `init_db`. -/
def DB.init : DB := ⟨[], [], 1⟩

/-- Embeds `SELECT * FROM events WHERE id = ?` followed by `fetchone()`. -/
def get_event (db : DB) (event_id : Int) : Option EventRow :=
  db.events.find? (fun e => e.id == event_id)

/-- Python truthiness of an optional string: `None` and `""` are falsy. -/
def opt_truthy : Option String → Bool
  | none => false
  | some s => !(s == "")

/-- Embeds `human_name` (source lines 91 to 96). -/
def human_name (username first_name : Option String) : String :=
  if opt_truthy username then "@" ++ username.getD ""
  else if opt_truthy first_name then first_name.getD ""
  else "(sin nombre)"

/-- Expansion of one character under `html.escape(s)` (quote=True, the
default).  `html.escape` does sequential `str.replace` passes with `"&"`
replaced first, which is equivalent to this character-wise expansion. -/
def escape_char (c : Char) : List Char :=
  if c = '&' then "&amp;".data
  else if c = '<' then "&lt;".data
  else if c = '>' then "&gt;".data
  else if c = Char.ofNat 34 then "&quot;".data
  else if c = Char.ofNat 39 then "&#x27;".data
  else [c]

/-- Embeds `html.escape` with its default `quote=True`. -/
def htmlEscape (s : String) : String :=
  String.mk (s.data.flatMap escape_char)

/-- Embeds the attendee query of `render_event_text` (source line 101) as
one admissible result of `WHERE event_id = ? ORDER BY joined_at ASC`:
filter by event id in rowid order, then sort by `joined_at`.  The choice of
a stable sort here is a modelling choice, not a program guarantee: SQLite
does not fix the relative order of rows with equal `joined_at` keys, so
only properties that hold for every `joined_at`-nondecreasing permutation
of the selected rows (see `sql_ordered`) are properties of the program. -/
def list_attendees (db : DB) (event_id : Int) : List AttendeeRow :=
  (db.attendees.filter (fun a => a.event_id == event_id)).mergeSort
    (fun a b => decide (a.joined_at ≤ b.joined_at))

/-- What the engine guarantees for
`SELECT ... WHERE event_id = ? ORDER BY joined_at ASC` applied to the
selected rows: the result is a permutation of those rows that is
nondecreasing in `joined_at`.  SQLite leaves the relative order of rows
with equal keys undefined (the scan feeding the sorter may follow rowid
order or the `(event_id, user_id)` primary-key index), so every such
permutation is an admissible query result. -/
def sql_ordered (rows result : List AttendeeRow) : Prop :=
  rows.Perm result ∧
    result.Pairwise (fun a b => a.joined_at ≤ b.joined_at)

/-- Embeds the `enumerate(attendees, start=i)` loop of `render_event_text`
(source lines 114 to 117): one line `"{i}. {html.escape(name)}"` per
attendee. -/
def attendee_lines : Nat → List AttendeeRow → List String
  | _, [] => []
  | i, a :: rest =>
    (toString i ++ ". " ++ htmlEscape (human_name a.username a.first_name))
      :: attendee_lines (i + 1) rest

/-- Embeds `render_event_text` (source lines 99 to 125). -/
def render_event_text (ev : EventRow) (db : DB) : String :=
  let attendees := list_attendees db ev.id
  let header := ["📅 <b>Evento</b>\n" ++ htmlEscape ev.description, "",
    "👥 <b>Apuntados</b>:"]
  let body := if attendees.isEmpty then ["(nadie apuntado aún)"]
    else attendee_lines 1 attendees
  let footer := ["", "🕒 Creado: " ++ toString ev.created_at,
    "🆔 Evento #" ++ toString ev.id]
  String.intercalate "\n" (header ++ body ++ footer)

/-- Embeds `render_event_by_id` (source lines 246 to 251). -/
def render_event_by_id (db : DB) (event_id : Int) : String :=
  match get_event db event_id with
  | none => "(evento no encontrado)"
  | some ev => render_event_text ev db

/-- Python whitespace characters stripped by `str.strip()` for the ASCII
range (space, tab, newline, carriage return, vertical tab, form feed).
Non-ASCII Unicode whitespace never appears in the strings the bot builds. -/
def isPyWs (c : Char) : Bool :=
  c = ' ' || c = '\t' || c = '\n' || c = Char.ofNat 13 || c = Char.ofNat 11
    || c = Char.ofNat 12

/-- Embeds Python `str.strip()`: drop leading and trailing whitespace. -/
def py_strip (s : String) : String :=
  String.mk (((s.data.dropWhile isPyWs).reverse.dropWhile isPyWs).reverse)

/-- Split a character list at the first occurrence of `c`; `none` when `c`
does not occur.  This combines the source checks `":" not in data` /
`" " not in text` with `split(":", 1)` / `partition(" ")`, which take the
text before and after the first occurrence. -/
def split_first (c : Char) : List Char → Option (List Char × List Char)
  | [] => none
  | a :: rest =>
    if a = c then some ([], rest)
    else match split_first c rest with
      | none => none
      | some (pre, post) => some (a :: pre, post)

/-- Embeds `text.partition(" ")[2]`: the text after the first space, or the
empty string when there is no space. -/
def partition_after (c : Char) (s : String) : String :=
  match split_first c s.data with
  | none => ""
  | some (_, post) => String.mk post

/-- Digit-run tail of Python `int(str)` parsing with an accumulator: decimal
digits, a single underscore allowed only between two digits. -/
def py_digits : Nat → List Char → Option Nat
  | acc, [] => some acc
  | acc, c :: rest =>
    if c.isDigit then py_digits (acc * 10 + (c.toNat - 48)) rest
    else if c = Char.ofNat 95 then
      match rest with
      | [] => none
      | d :: rest2 =>
        if d.isDigit then py_digits (acc * 10 + (d.toNat - 48)) rest2 else none
    else none

/-- Nonempty digit run: must start with a digit. -/
def py_digit_run : List Char → Option Nat
  | [] => none
  | c :: rest => if c.isDigit then py_digits (c.toNat - 48) rest else none

/-- Embeds Python `int(s)` on a decimal string: surrounding whitespace is
ignored, then an optional sign and a nonempty digit run (underscores only
between digits); anything else raises `ValueError`, embedded as `none`.
Non-ASCII decimal digits accepted by CPython are not modelled; the payloads
the bot itself builds are plain ASCII. -/
def pyParseInt (s : String) : Option Int :=
  let cs := ((s.data.dropWhile isPyWs).reverse.dropWhile isPyWs).reverse
  match cs with
  | '+' :: rest => (py_digit_run rest).map (fun n => (n : Int))
  | '-' :: rest => (py_digit_run rest).map (fun n => -(n : Int))
  | rest => (py_digit_run rest).map (fun n => (n : Int))

/-- What the button handler does to the chat, beyond mutating the store:
return early without touching the message (`noReply`), replace the message
with the "no longer exists" notice, or edit it to a re-rendered roster. -/
inductive ButtonEffect where
  | noReply : ButtonEffect
  | notice : String → ButtonEffect
  | edited : String → ButtonEffect
deriving Repr, DecidableEq

/-- The `WHERE event_id = ? AND user_id = ?` condition shared by the
primary-key conflict check of the insert and by the delete. -/
def is_pair (event_id user_id : Int) (a : AttendeeRow) : Bool :=
  a.event_id == event_id && a.user_id == user_id

/-- Embeds the `join` branch of `on_button` (source lines 213 to 228):
`INSERT INTO attendees ...`; the `(event_id, user_id)` primary key makes the
insert raise `IntegrityError` when the pair already exists, which the code
catches and ignores, so the row is appended only when the pair is absent. -/
def join_insert (db : DB) (event_id : Int) (u : User) (now : Nat) : DB :=
  if db.attendees.any (is_pair event_id u.id) then
    db
  else
    { db with attendees :=
        db.attendees ++ [⟨event_id, u.id, u.username, u.first_name, now⟩] }

/-- Embeds the `leave` branch of `on_button` (source lines 229 to 234):
`DELETE FROM attendees WHERE event_id = ? AND user_id = ?`. -/
def leave_delete (db : DB) (event_id : Int) (user_id : Int) : DB :=
  { db with attendees :=
      (db.attendees.filter (fun a => !(is_pair event_id user_id a))) }

/-- Embeds `on_button` from the point where `event_id` is parsed (source
lines 204 to 241): look the event up; if absent, edit the message to the
"no longer exists" notice and stop; otherwise apply the action (an unknown
action mutates nothing) and edit the message to the re-rendered roster. -/
def handle_action (db : DB) (action : String) (event_id : Int) (u : User)
    (now : Nat) : DB × ButtonEffect :=
  match get_event db event_id with
  | none => (db, .notice "Este evento ya no existe.")
  | some _ =>
    let db2 :=
      if action = "join" then join_insert db event_id u now
      else if action = "leave" then leave_delete db event_id u.id
      else db
    (db2, .edited (render_event_by_id db2 event_id))

/-- Embeds `on_button` (source lines 186 to 241): when the payload has no
`:` or the part after the first `:` is not an `int`, return without touching
anything; otherwise dispatch on the parsed event id. -/
def on_button (db : DB) (data : String) (u : User) (now : Nat) :
    DB × ButtonEffect :=
  match split_first ':' data.data with
  | none => (db, .noReply)
  | some (action, id_str) =>
    match pyParseInt (String.mk id_str) with
    | none => (db, .noReply)
    | some event_id => handle_action db (String.mk action) event_id u now

/-- What `create_event` does to the chat: reply with the usage line
`"Formato: /partida <descripción del evento>"`, or post the rendered view of
the new event (carrying its id). -/
inductive CreateEffect where
  | usage : CreateEffect
  | posted : Int → String → CreateEffect
deriving Repr, DecidableEq

/-- Embeds `UPDATE events SET message_id = ? WHERE id = ?` (source
lines 178 to 183). -/
def set_message_ref (db : DB) (event_id : Int) (mid : Int) : DB :=
  { db with events :=
      (db.events.map
        (fun e => if e.id == event_id then { e with message_id := some mid } else e)) }

/-- Embeds `create_event` (source lines 147 to 183): the description is the
stripped text after the first space of the message; when it is empty the
usage reply is sent and nothing is persisted; otherwise the event row is
inserted with a fresh id, the view is rendered and posted, and the sent
message id is backfilled. -/
def create_event (db : DB) (message_text : Option String)
    (chat_id from_id : Int) (now : Nat) (sent_message_id : Int) :
    DB × CreateEffect :=
  let description := py_strip (partition_after ' ' (message_text.getD ""))
  if description = "" then (db, .usage)
  else
    let event_id := db.next_id
    let db1 : DB := { db with
      events := db.events ++ [⟨event_id, chat_id, none, description, from_id, now⟩],
      next_id := db.next_id + 1 }
    let text := render_event_by_id db1 event_id
    (set_message_ref db1 event_id sent_message_id, .posted event_id text)

/-- The database states reachable from `init_db` through the two handlers
(the `/start` handler never touches the store). -/
inductive Reachable : DB → Prop where
  | init : Reachable DB.init
  | create (db : DB) (mt : Option String) (c uid : Int) (now : Nat) (mid : Int) :
      Reachable db → Reachable (create_event db mt c uid now mid).1
  | button (db : DB) (data : String) (u : User) (now : Nat) :
      Reachable db → Reachable (on_button db data u now).1

/-- The key of the `attendees` primary key: the `(event_id, user_id)` pair. -/
def attendee_key (a : AttendeeRow) : Int × Int := (a.event_id, a.user_id)

/-- At most one attendee row per `(event_id, user_id)` pair. -/
def UniqueAttendees (db : DB) : Prop :=
  (db.attendees.map attendee_key).Nodup

/-- Rank-numbering of already-escaped display names, used to factor
`render_event_text` into sanitization followed by pure layout. -/
def number_lines : Nat → List String → List String
  | _, [] => []
  | i, s :: rest => (toString i ++ ". " ++ s) :: number_lines (i + 1) rest

/-- The layout of `render_event_text` abstracted over the already-escaped
user-supplied strings (description and display names): user text reaches the
output only through the `escaped_description` and `escaped_names`
arguments. -/
def render_template (event_id : Int) (created_at : Nat)
    (escaped_description : String) (escaped_names : List String) : String :=
  let header := ["📅 <b>Evento</b>\n" ++ escaped_description, "",
    "👥 <b>Apuntados</b>:"]
  let body := if escaped_names.isEmpty then ["(nadie apuntado aún)"]
    else number_lines 1 escaped_names
  let footer := ["", "🕒 Creado: " ++ toString created_at,
    "🆔 Evento #" ++ toString event_id]
  String.intercalate "\n" (header ++ body ++ footer)

/-- A concrete event for the witness instantiations. -/
def sampleEvent : EventRow := ⟨1, 100, none, "Sesión 0", 42, 3⟩

/-- A one-event, zero-attendee store for the witness instantiations. -/
def sampleDB : DB := ⟨[sampleEvent], [], 2⟩

/-- A user with a username, for the witness instantiations. -/
def alice : User := ⟨7, some "alice", none⟩

/-- A store where alice (user 7) and Bob (user 8) joined event 1 in that
insertion order with equal `joined_at` timestamps, for the tie-order
instantiations. -/
def tiedDB : DB :=
  ⟨[sampleEvent],
    [⟨1, 7, some "alice", none, 5⟩, ⟨1, 8, none, some "Bob", 5⟩], 2⟩

/-! ### Basic facts about the embedded operations -/

theorem join_insert_events (db : DB) (e : Int) (u : User) (t : Nat) :
    (join_insert db e u t).events = db.events := by
  unfold join_insert; split <;> rfl

theorem leave_delete_events (db : DB) (e uid : Int) :
    (leave_delete db e uid).events = db.events := rfl

theorem get_event_join_insert (db : DB) (e : Int) (u : User) (t : Nat) (x : Int) :
    get_event (join_insert db e u t) x = get_event db x := by
  unfold get_event; rw [join_insert_events]

theorem get_event_leave_delete (db : DB) (e uid x : Int) :
    get_event (leave_delete db e uid) x = get_event db x := rfl

theorem split_first_eq_none (c : Char) (l : List Char) (h : c ∉ l) :
    split_first c l = none := by
  induction l with
  | nil => rfl
  | cons a rest ih =>
    simp only [List.mem_cons, not_or] at h
    unfold split_first
    rw [if_neg (fun hac => h.1 hac.symm)]
    rw [ih h.2]

/-- C8: a Join or Leave action naming an event id absent from the store
stops with the user-visible "no longer exists" notice and performs no store
mutation: the handler returns the database unchanged, and the only effect is
the notice (no roster edit). -/
theorem handle_action_event_not_found (db : DB) (action : String)
    (event_id : Int) (u : User) (now : Nat)
    (h : get_event db event_id = none) :
    handle_action db action event_id u now =
      (db, ButtonEffect.notice "Este evento ya no existe.") := by
  unfold handle_action
  rw [h]

/-- Witness for C8 at a concrete input: the empty database has no event 5,
so both the join and the state-preservation facts hold there. -/
theorem handle_action_event_not_found_witness :
    handle_action DB.init "join" 5 ⟨7, some "alice", none⟩ 0 =
      (DB.init, ButtonEffect.notice "Este evento ya no existe.") :=
  handle_action_event_not_found DB.init "join" 5 ⟨7, some "alice", none⟩ 0 rfl

/-- C9: `render_event_by_id` is a pure read returning the not-found
placeholder exactly when the event id is absent, and the rendered view of
the event when it is present. -/
theorem render_event_by_id_total (db : DB) (event_id : Int) :
    (get_event db event_id = none →
      render_event_by_id db event_id = "(evento no encontrado)")
    ∧ (∀ ev, get_event db event_id = some ev →
      render_event_by_id db event_id = render_event_text ev db) := by
  constructor
  · intro h; unfold render_event_by_id; rw [h]
  · intro ev h; unfold render_event_by_id; rw [h]

/-- Witness for C9 at a concrete input: rendering event 1 in the empty
database yields the not-found placeholder. -/
theorem render_event_by_id_total_witness :
    render_event_by_id DB.init 1 = "(evento no encontrado)" :=
  (render_event_by_id_total DB.init 1).1 rfl

/-- C4: a create command whose description strips to the empty string is
rejected with the usage reply and the database (in particular the events
table) is completely unchanged. -/
theorem create_event_rejects_empty (db : DB) (mt : Option String)
    (chat_id from_id : Int) (now : Nat) (mid : Int)
    (h : py_strip (partition_after ' ' (mt.getD "")) = "") :
    create_event db mt chat_id from_id now mid = (db, CreateEffect.usage) := by
  unfold create_event
  rw [h]
  simp

/-- Witness for C4 at a concrete input: a `/partida` message followed only
by whitespace is rejected and persists nothing. -/
theorem create_event_rejects_empty_witness :
    create_event DB.init (some "/partida   ") 100 42 9 77 =
      (DB.init, CreateEffect.usage) :=
  create_event_rejects_empty DB.init (some "/partida   ") 100 42 9 77 rfl

/-- C10: a button payload with no `:` separator, or whose part after the
first `:` does not parse as an integer, makes the handler return without
mutating the store and without editing the message. -/
theorem on_button_bad_payload (db : DB) (data : String) (u : User) (now : Nat)
    (h : (':' ∉ data.data) ∨
      (∀ pre post, split_first ':' data.data = some (pre, post) →
        pyParseInt (String.mk post) = none)) :
    on_button db data u now = (db, ButtonEffect.noReply) := by
  unfold on_button
  rcases h with h | h
  · rw [split_first_eq_none ':' data.data h]
  · cases hs : split_first ':' data.data with
    | none => rfl
    | some pr =>
      obtain ⟨pre, post⟩ := pr
      have hp := h pre post hs
      simp [hp]

/-- Witness for C10 at a concrete input: the payload `"nonsense"` has no
separator, so the handler is a no-op on any database. -/
theorem on_button_bad_payload_witness :
    on_button DB.init "nonsense" ⟨7, some "alice", none⟩ 0 =
      (DB.init, ButtonEffect.noReply) :=
  on_button_bad_payload DB.init "nonsense" ⟨7, some "alice", none⟩ 0
    (Or.inl (by decide))

theorem handle_action_join (db : DB) (event_id : Int) (u : User) (now : Nat)
    (ev : EventRow) (hev : get_event db event_id = some ev) :
    handle_action db "join" event_id u now =
      (join_insert db event_id u now,
        ButtonEffect.edited
          (render_event_by_id (join_insert db event_id u now) event_id)) := by
  unfold handle_action
  rw [hev]
  simp

theorem handle_action_leave (db : DB) (event_id : Int) (u : User) (now : Nat)
    (ev : EventRow) (hev : get_event db event_id = some ev) :
    handle_action db "leave" event_id u now =
      (leave_delete db event_id u.id,
        ButtonEffect.edited
          (render_event_by_id (leave_delete db event_id u.id) event_id)) := by
  unfold handle_action
  rw [hev]
  simp

theorem join_insert_already (db : DB) (event_id : Int) (u : User) (now : Nat)
    (h : db.attendees.any (is_pair event_id u.id) = true) :
    join_insert db event_id u now = db := by
  unfold join_insert
  simp [h]

theorem join_insert_any (db : DB) (event_id : Int) (u : User) (now : Nat) :
    (join_insert db event_id u now).attendees.any (is_pair event_id u.id) = true := by
  unfold join_insert
  split
  · assumption
  · simp [is_pair]

theorem join_insert_filter_pair (db : DB) (event_id : Int) (u : User) (now : Nat)
    (hcount : (db.attendees.filter (is_pair event_id u.id)).length ≤ 1) :
    ((join_insert db event_id u now).attendees.filter
      (is_pair event_id u.id)).length = 1 := by
  unfold join_insert
  split
  · rename_i hany
    rw [List.any_eq_true] at hany
    obtain ⟨x, hx, hpx⟩ := hany
    have hmem : x ∈ db.attendees.filter (is_pair event_id u.id) :=
      List.mem_filter.mpr ⟨hx, hpx⟩
    have hpos : 0 < (db.attendees.filter (is_pair event_id u.id)).length :=
      List.length_pos.mpr (List.ne_nil_of_mem hmem)
    omega
  · rename_i hany
    rw [List.any_eq_true] at hany
    have h1 : db.attendees.filter (is_pair event_id u.id) = [] := by
      rw [List.filter_eq_nil_iff]
      intro a ha hpa
      exact hany ⟨a, ha, hpa⟩
    show ((db.attendees ++
        ([⟨event_id, u.id, u.username, u.first_name, now⟩] : List AttendeeRow)).filter
          (is_pair event_id u.id)).length = 1
    rw [List.filter_append, h1]
    simp [is_pair]

/-- C2: joining an existing event twice in a row leaves exactly one attendee
row for the user, the second call does not change the store at all, and both
calls succeed by editing the message to the current rendered roster (no
error effect). -/
theorem join_idempotent (db : DB) (event_id : Int) (u : User) (t1 t2 : Nat)
    (ev : EventRow) (hev : get_event db event_id = some ev)
    (hcount : (db.attendees.filter (is_pair event_id u.id)).length ≤ 1) :
    ((handle_action (handle_action db "join" event_id u t1).1 "join" event_id
        u t2).1.attendees.filter (is_pair event_id u.id)).length = 1
    ∧ (handle_action (handle_action db "join" event_id u t1).1 "join" event_id
        u t2).1 = (handle_action db "join" event_id u t1).1
    ∧ (handle_action db "join" event_id u t1).2 =
        ButtonEffect.edited
          (render_event_by_id (handle_action db "join" event_id u t1).1 event_id)
    ∧ (handle_action (handle_action db "join" event_id u t1).1 "join" event_id
        u t2).2 =
        ButtonEffect.edited
          (render_event_by_id
            (handle_action (handle_action db "join" event_id u t1).1 "join"
              event_id u t2).1 event_id) := by
  have hev1 : get_event (join_insert db event_id u t1) event_id = some ev := by
    rw [get_event_join_insert]; exact hev
  have h1 := handle_action_join db event_id u t1 ev hev
  have h2 := handle_action_join (join_insert db event_id u t1) event_id u t2 ev hev1
  have hdb2 : join_insert (join_insert db event_id u t1) event_id u t2 =
      join_insert db event_id u t1 :=
    join_insert_already _ _ _ _ (join_insert_any db event_id u t1)
  refine ⟨?_, ?_, ?_, ?_⟩ <;> simp only [h1, h2, hdb2]
  exact join_insert_filter_pair db event_id u t1 hcount

/-- Witness for C2 at a concrete input: alice joins event 1 of a one-event
store twice; exactly one row remains and the second call is a no-op on the
store. -/
theorem join_idempotent_witness :
    ((handle_action (handle_action sampleDB "join" 1 alice 5).1 "join" 1
        alice 6).1.attendees.filter (is_pair 1 alice.id)).length = 1
    ∧ (handle_action (handle_action sampleDB "join" 1 alice 5).1 "join" 1
        alice 6).1 = (handle_action sampleDB "join" 1 alice 5).1 :=
  ⟨(join_idempotent sampleDB 1 alice 5 6 sampleEvent rfl (by decide)).1,
   (join_idempotent sampleDB 1 alice 5 6 sampleEvent rfl (by decide)).2.1⟩

theorem leave_delete_filter_pair (db : DB) (e uid : Int) :
    (leave_delete db e uid).attendees.filter (is_pair e uid) = [] := by
  unfold leave_delete
  simp [List.filter_filter, Bool.and_not_self]

theorem leave_delete_any (db : DB) (e uid : Int) :
    (leave_delete db e uid).attendees.any (is_pair e uid) = false := by
  rw [List.any_eq_false]
  intro x hx
  unfold leave_delete at hx
  simp only [List.mem_filter] at hx
  simpa using hx.2

theorem join_insert_absent (db : DB) (e : Int) (u : User) (t : Nat)
    (h : db.attendees.any (is_pair e u.id) = false) :
    join_insert db e u t =
      { db with attendees :=
          db.attendees ++ [⟨e, u.id, u.username, u.first_name, t⟩] } := by
  unfold join_insert
  simp [h]

/-- C3: for an existing event, the sequence join, leave, join for the same
user leaves exactly one attendee row for that user, and it is a fresh row
carrying the timestamp of the second join (`t3`), not the first (`t1`); in
particular every entry for that user in the rendered roster order carries
the second timestamp. -/
theorem join_leave_join (db : DB) (event_id : Int) (u : User) (t1 t2 t3 : Nat)
    (ev : EventRow) (hev : get_event db event_id = some ev) :
    ((handle_action (handle_action (handle_action db "join" event_id u t1).1
        "leave" event_id u t2).1 "join" event_id u t3).1.attendees.filter
          (is_pair event_id u.id)) =
      [⟨event_id, u.id, u.username, u.first_name, t3⟩]
    ∧ ∀ a ∈ list_attendees (handle_action (handle_action (handle_action db
        "join" event_id u t1).1 "leave" event_id u t2).1 "join" event_id u
          t3).1 event_id,
        a.user_id = u.id → a = ⟨event_id, u.id, u.username, u.first_name, t3⟩ := by
  have hev1 : get_event (join_insert db event_id u t1) event_id = some ev := by
    rw [get_event_join_insert]; exact hev
  have hev2 : get_event (leave_delete (join_insert db event_id u t1) event_id
      u.id) event_id = some ev := by
    rw [get_event_leave_delete]; exact hev1
  have e1 : (handle_action db "join" event_id u t1).1 =
      join_insert db event_id u t1 := by
    rw [handle_action_join db event_id u t1 ev hev]
  have e2 : (handle_action (join_insert db event_id u t1) "leave" event_id
      u t2).1 = leave_delete (join_insert db event_id u t1) event_id u.id := by
    rw [handle_action_leave _ event_id u t2 ev hev1]
  have e3 : (handle_action (leave_delete (join_insert db event_id u t1)
      event_id u.id) "join" event_id u t3).1 =
      join_insert (leave_delete (join_insert db event_id u t1) event_id u.id)
        event_id u t3 := by
    rw [handle_action_join _ event_id u t3 ev hev2]
  have hfil : (join_insert (leave_delete (join_insert db event_id u t1)
      event_id u.id) event_id u t3).attendees.filter (is_pair event_id u.id) =
      [⟨event_id, u.id, u.username, u.first_name, t3⟩] := by
    rw [join_insert_absent _ _ _ _ (leave_delete_any _ _ _)]
    show (((leave_delete (join_insert db event_id u t1) event_id
        u.id).attendees ++
        ([⟨event_id, u.id, u.username, u.first_name, t3⟩] :
          List AttendeeRow)).filter (is_pair event_id u.id)) = _
    rw [List.filter_append, leave_delete_filter_pair]
    simp [is_pair]
  refine ⟨by rw [e1, e2, e3]; exact hfil, ?_⟩
  rw [e1, e2, e3]
  intro a ha huid
  unfold list_attendees at ha
  have hmem := (List.mergeSort_perm _ _).mem_iff.mp ha
  rw [List.mem_filter] at hmem
  have hpair : is_pair event_id u.id a = true := by
    simp only [is_pair, Bool.and_eq_true, beq_iff_eq]
    exact ⟨by simpa using hmem.2, huid⟩
  have hx : a ∈ (join_insert (leave_delete (join_insert db event_id u t1)
      event_id u.id) event_id u t3).attendees.filter (is_pair event_id u.id) :=
    List.mem_filter.mpr ⟨hmem.1, hpair⟩
  rw [hfil] at hx
  simpa using hx

/-- Witness for C3 at a concrete input: alice joins, leaves and re-joins
event 1; the only row left for her carries the second join timestamp 7. -/
theorem join_leave_join_witness :
    ((handle_action (handle_action (handle_action sampleDB "join" 1 alice 5).1
        "leave" 1 alice 6).1 "join" 1 alice 7).1.attendees.filter
          (is_pair 1 alice.id)) =
      [⟨1, alice.id, alice.username, alice.first_name, 7⟩] :=
  (join_leave_join sampleDB 1 alice 5 6 7 sampleEvent rfl).1

theorem create_event_attendees (db : DB) (mt : Option String) (c uid : Int)
    (now : Nat) (mid : Int) :
    (create_event db mt c uid now mid).1.attendees = db.attendees := by
  simp only [create_event]
  split
  · rfl
  · rfl

theorem join_insert_unique (db : DB) (e : Int) (u : User) (t : Nat)
    (h : UniqueAttendees db) : UniqueAttendees (join_insert db e u t) := by
  unfold join_insert
  split
  · exact h
  · rename_i hany
    rw [List.any_eq_true] at hany
    unfold UniqueAttendees at h ⊢
    show ((db.attendees ++
      ([⟨e, u.id, u.username, u.first_name, t⟩] : List AttendeeRow)).map
        attendee_key).Nodup
    rw [List.map_append, List.nodup_append]
    refine ⟨h, by simp, ?_⟩
    intro k hk
    simp only [List.mem_map] at hk
    obtain ⟨a, ha, rfl⟩ := hk
    simp only [List.map_cons, List.map_nil, List.mem_cons, List.not_mem_nil,
      or_false]
    intro hkey
    apply hany
    refine ⟨a, ha, ?_⟩
    simp only [attendee_key, Prod.mk.injEq] at hkey
    simp [is_pair, hkey.1, hkey.2]

theorem leave_delete_unique (db : DB) (e uid : Int)
    (h : UniqueAttendees db) : UniqueAttendees (leave_delete db e uid) := by
  unfold UniqueAttendees at h ⊢
  unfold leave_delete
  exact h.sublist ((List.filter_sublist _).map attendee_key)

theorem handle_action_unique (db : DB) (action : String) (e : Int) (u : User)
    (t : Nat) (h : UniqueAttendees db) :
    UniqueAttendees (handle_action db action e u t).1 := by
  unfold handle_action
  cases hev : get_event db e with
  | none => exact h
  | some ev =>
    show UniqueAttendees (if action = "join" then join_insert db e u t
      else if action = "leave" then leave_delete db e u.id else db)
    split
    · exact join_insert_unique db e u t h
    · split
      · exact leave_delete_unique db e u.id h
      · exact h

theorem on_button_unique (db : DB) (data : String) (u : User) (t : Nat)
    (h : UniqueAttendees db) : UniqueAttendees (on_button db data u t).1 := by
  unfold on_button
  cases split_first ':' data.data with
  | none => exact h
  | some pr =>
    obtain ⟨pre, post⟩ := pr
    dsimp only
    cases pyParseInt (String.mk post) with
    | none => exact h
    | some e => exact handle_action_unique db (String.mk pre) e u t h

/-- C1: every database state reachable from the fresh store through the two
handlers (any interleaving of event creations and join or leave button
presses, including joins for users already present) has at most one attendee
row per `(event_id, user_id)` pair. -/
theorem reachable_unique_attendees (db : DB) (h : Reachable db) :
    UniqueAttendees db := by
  induction h with
  | init => exact List.nodup_nil
  | create db mt c uid now mid _ ih =>
    unfold UniqueAttendees
    rw [create_event_attendees]
    exact ih
  | button db data u now _ ih => exact on_button_unique db data u now ih

/-- Witness for C1 at a concrete input: create an event, then press join
once; the resulting state is reachable and satisfies the invariant. -/
theorem reachable_unique_attendees_witness :
    UniqueAttendees (on_button (create_event DB.init (some "/partida Sesión 0")
      100 42 3 77).1 "join:1" alice 5).1 :=
  reachable_unique_attendees _
    (Reachable.button _ "join:1" alice 5
      (Reachable.create DB.init (some "/partida Sesión 0") 100 42 3 77
        Reachable.init))

theorem joined_at_le_trans : ∀ (a b c : AttendeeRow),
    decide (a.joined_at ≤ b.joined_at) = true →
    decide (b.joined_at ≤ c.joined_at) = true →
    decide (a.joined_at ≤ c.joined_at) = true := by
  intro a b c h1 h2
  simp only [decide_eq_true_eq] at *
  omega

theorem joined_at_le_total : ∀ (a b : AttendeeRow),
    (decide (a.joined_at ≤ b.joined_at)
      || decide (b.joined_at ≤ a.joined_at)) = true := by
  intro a b
  simp only [Bool.or_eq_true, decide_eq_true_eq]
  omega

theorem attendee_lines_rank (l : List AttendeeRow) :
    ∀ (k j : Nat) (a : AttendeeRow), l[j]? = some a →
      (attendee_lines k l)[j]? =
        some (toString (k + j) ++ ". " ++
          htmlEscape (human_name a.username a.first_name)) := by
  induction l with
  | nil => intro k j a h; simp at h
  | cons b rest ih =>
    intro k j a h
    cases j with
    | zero =>
      simp only [List.getElem?_cons_zero, Option.some.injEq] at h
      subst h
      simp [attendee_lines]
    | succ j =>
      simp only [List.getElem?_cons_succ] at h
      have hrank := ih (k + 1) j a h
      rw [show k + (j + 1) = k + 1 + j by omega]
      simpa [attendee_lines] using hrank

/-- C5: the roster used by rendering is sorted ascending by `joined_at`, the
rendered attendee lines carry 1-based ranks following exactly that order,
and rendering is deterministic: identical inputs give byte-identical
output. -/
theorem render_sorted_ranked_pure (db : DB) (ev : EventRow) :
    List.Pairwise (fun a b => a.joined_at ≤ b.joined_at)
      (list_attendees db ev.id)
    ∧ (∀ (j : Nat) (a : AttendeeRow), (list_attendees db ev.id)[j]? = some a →
        (attendee_lines 1 (list_attendees db ev.id))[j]? =
          some (toString (j + 1) ++ ". " ++
            htmlEscape (human_name a.username a.first_name)))
    ∧ (∀ (db2 : DB) (ev2 : EventRow), db = db2 → ev = ev2 →
        render_event_text ev db = render_event_text ev2 db2) := by
  refine ⟨?_, ?_, ?_⟩
  · have hs := List.sorted_mergeSort joined_at_le_trans joined_at_le_total
      (db.attendees.filter (fun a => a.event_id == ev.id))
    exact hs.imp (fun h => by simpa using h)
  · intro j a h
    have hrank := attendee_lines_rank (list_attendees db ev.id) 1 j a h
    simpa [Nat.add_comm] using hrank
  · intro db2 ev2 h1 h2
    subst h1
    subst h2
    rfl

/-- Witness for C5 at a concrete input: with one attendee row the roster is
the singleton list and its line is rank 1 with the escaped name. -/
theorem render_sorted_ranked_pure_witness :
    (attendee_lines 1
      (list_attendees ⟨[sampleEvent], [⟨1, 7, some "alice", none, 5⟩], 2⟩
        sampleEvent.id))[0]? = some "1. @alice" :=
  (render_sorted_ranked_pure ⟨[sampleEvent], [⟨1, 7, some "alice", none, 5⟩], 2⟩
    sampleEvent).2.1 0 ⟨1, 7, some "alice", none, 5⟩ (by simp [list_attendees, sampleEvent])

/-- Counterexample for C7 as stated: alice (user 7) and Bob (user 8) joined
event 1 in that insertion order with equal `joined_at` timestamps, yet the
reversed roster listing Bob first satisfies everything the program's query
asks of the store (a `joined_at`-nondecreasing permutation of the selected
rows) while differing from the insertion-order roster.  The program
therefore does not guarantee the claimed insertion-order tie-break. -/
theorem tie_break_counterexample :
    sql_ordered (tiedDB.attendees.filter (fun a => a.event_id == 1))
      [⟨1, 8, none, some "Bob", 5⟩, ⟨1, 7, some "alice", none, 5⟩]
    ∧ ([⟨1, 8, none, some "Bob", 5⟩, ⟨1, 7, some "alice", none, 5⟩] :
        List AttendeeRow) ≠
      [⟨1, 7, some "alice", none, 5⟩, ⟨1, 8, none, some "Bob", 5⟩] :=
  ⟨⟨by decide, by decide⟩, by decide⟩

/-- C7 (amended): the program constrains the rendered roster only up to the
query contract: the roster the embedding renders is an admissible result of
`ORDER BY joined_at ASC` (a permutation of the event's rows, nondecreasing
in `joined_at`), and in every admissible result an earlier row never has a
strictly larger `joined_at` than a later one, so ranks of strictly distinct
timestamps are determined.  The relative order of rows with equal
`joined_at` is left undefined by the engine, so the insertion-order
tie-break of the original claim is admissible but not guaranteed (see the
counterexample). -/
theorem order_by_contract (db : DB) (event_id : Int) :
    sql_ordered (db.attendees.filter (fun a => a.event_id == event_id))
      (list_attendees db event_id)
    ∧ (∀ (result : List AttendeeRow) (x y : AttendeeRow)
        (l1 l2 l3 : List AttendeeRow),
        sql_ordered (db.attendees.filter (fun a => a.event_id == event_id))
          result →
        result = l1 ++ x :: (l2 ++ y :: l3) →
        x.joined_at ≤ y.joined_at) := by
  constructor
  · constructor
    · exact (List.mergeSort_perm _ _).symm
    · have hs := List.sorted_mergeSort joined_at_le_trans joined_at_le_total
        (db.attendees.filter (fun a => a.event_id == event_id))
      exact hs.imp (fun h => by simpa using h)
  · intro result x y l1 l2 l3 h hsplit
    have hp := h.2
    rw [hsplit] at hp
    have hcons := (List.pairwise_append.mp hp).2.1
    exact List.rel_of_pairwise_cons hcons
      (List.mem_append_right l2 (List.mem_cons_self y l3))

/-- Witness for the amended C7 at a concrete input: the roster rendered
from the tied two-attendee store is an admissible query result, and in the
admissible insertion-order result the earlier key is at most the later
one. -/
theorem order_by_contract_witness :
    sql_ordered (tiedDB.attendees.filter (fun a => a.event_id == 1))
      (list_attendees tiedDB 1)
    ∧ (⟨1, 7, some "alice", none, 5⟩ : AttendeeRow).joined_at ≤
      (⟨1, 8, none, some "Bob", 5⟩ : AttendeeRow).joined_at :=
  ⟨(order_by_contract tiedDB 1).1,
   (order_by_contract tiedDB 1).2
     [⟨1, 7, some "alice", none, 5⟩, ⟨1, 8, none, some "Bob", 5⟩]
     ⟨1, 7, some "alice", none, 5⟩ ⟨1, 8, none, some "Bob", 5⟩ [] [] []
     ⟨by decide, by decide⟩ rfl⟩

theorem escape_char_no_markup (c0 c : Char) (h : c ∈ escape_char c0) :
    c ≠ '<' ∧ c ≠ '>' ∧ c ≠ Char.ofNat 34 ∧ c ≠ Char.ofNat 39 := by
  unfold escape_char at h
  by_cases h1 : c0 = '&'
  · rw [if_pos h1] at h
    simp only [show ("&amp;".data = ['&', 'a', 'm', 'p', ';']) from rfl,
      List.mem_cons, List.not_mem_nil, or_false] at h
    rcases h with rfl | rfl | rfl | rfl | rfl <;> decide
  rw [if_neg h1] at h
  by_cases h2 : c0 = '<'
  · rw [if_pos h2] at h
    simp only [show ("&lt;".data = ['&', 'l', 't', ';']) from rfl,
      List.mem_cons, List.not_mem_nil, or_false] at h
    rcases h with rfl | rfl | rfl | rfl <;> decide
  rw [if_neg h2] at h
  by_cases h3 : c0 = '>'
  · rw [if_pos h3] at h
    simp only [show ("&gt;".data = ['&', 'g', 't', ';']) from rfl,
      List.mem_cons, List.not_mem_nil, or_false] at h
    rcases h with rfl | rfl | rfl | rfl <;> decide
  rw [if_neg h3] at h
  by_cases h4 : c0 = Char.ofNat 34
  · rw [if_pos h4] at h
    simp only [show ("&quot;".data = ['&', 'q', 'u', 'o', 't', ';']) from rfl,
      List.mem_cons, List.not_mem_nil, or_false] at h
    rcases h with rfl | rfl | rfl | rfl | rfl | rfl <;> decide
  rw [if_neg h4] at h
  by_cases h5 : c0 = Char.ofNat 39
  · rw [if_pos h5] at h
    simp only [show ("&#x27;".data = ['&', '#', 'x', '2', '7', ';']) from rfl,
      List.mem_cons, List.not_mem_nil, or_false] at h
    rcases h with rfl | rfl | rfl | rfl | rfl | rfl <;> decide
  rw [if_neg h5] at h
  simp only [List.mem_singleton] at h
  subst h
  exact ⟨h2, h3, h4, h5⟩

theorem attendee_lines_eq_number_lines (l : List AttendeeRow) : ∀ k,
    attendee_lines k l =
      number_lines k (l.map
        (fun a => htmlEscape (human_name a.username a.first_name))) := by
  induction l with
  | nil => intro k; rfl
  | cons a rest ih =>
    intro k
    simp only [attendee_lines, List.map_cons, number_lines, ih]

/-- C6: rendering embeds the user-supplied description and display names
only through `htmlEscape`: the output equals the fixed layout
`render_template` applied to the escaped strings, and an escaped string
never contains a raw lower-than, greater-than, double-quote or single-quote
character. -/
theorem render_escapes_user_text (db : DB) (ev : EventRow) :
    render_event_text ev db =
      render_template ev.id ev.created_at (htmlEscape ev.description)
        ((list_attendees db ev.id).map
          (fun a => htmlEscape (human_name a.username a.first_name)))
    ∧ (∀ (s : String), ∀ c ∈ (htmlEscape s).data,
        c ≠ '<' ∧ c ≠ '>' ∧ c ≠ Char.ofNat 34 ∧ c ≠ Char.ofNat 39) := by
  constructor
  · simp only [render_event_text, render_template]
    rw [attendee_lines_eq_number_lines]
    simp [List.isEmpty_iff]
  · intro s c hc
    have hm : c ∈ s.data.flatMap escape_char := hc
    rw [List.mem_flatMap] at hm
    obtain ⟨c0, _, hmem⟩ := hm
    exact escape_char_no_markup c0 c hmem

/-- Witness for C6 at a concrete input: the sample render factors through
the template on escaped strings, and the character a of the escaped form of
a markup-laden string is none of the markup characters. -/
theorem render_escapes_user_text_witness :
    render_event_text sampleEvent sampleDB =
      render_template sampleEvent.id sampleEvent.created_at
        (htmlEscape sampleEvent.description)
        ((list_attendees sampleDB sampleEvent.id).map
          (fun a => htmlEscape (human_name a.username a.first_name)))
    ∧ ('a' ≠ '<' ∧ 'a' ≠ '>' ∧ 'a' ≠ Char.ofNat 34 ∧ 'a' ≠ Char.ofNat 39) :=
  ⟨(render_escapes_user_text sampleDB sampleEvent).1,
   (render_escapes_user_text sampleDB sampleEvent).2 "<a>" 'a' (by decide)⟩
